import Mathlib

/-!
Verification of the E87 / Jieli RCSP BLE upload protocol implementation
(`src/web/src/lib/e87-protocol.ts`, `src/web/src/lib/utils.ts`,
`src/web/src/pattern-generators.ts` and the Qix 9E codec of the protocol
module variant).  Bytes are modelled as `Nat` values; `Uint8Array`
truncation (`& 0xff`) is modelled as `% 256`, JavaScript `x >> 8 & 0xff`
as `x / 256 % 256`, and signed 32-bit results of `<<`/`|` via `toInt32`.
-/

namespace E87

/-- CRC-16 inner round: one shift of `crc16xmodem`'s 8-step loop.
Mirrors `if (crc & 0x8000) crc = ((crc << 1) ^ 0x1021) & 0xffff
else crc = (crc << 1) & 0xffff` from `utils.ts`. -/
def crcRound (c : Nat) : Nat :=
  if c.testBit 15 then ((c * 2) ^^^ 0x1021) % 65536 else (c * 2) % 65536

/-- One input byte of `crc16xmodem`: xor the byte into the high half,
then run eight rounds. -/
def crc16Step (crc b : Nat) : Nat :=
  crcRound (crcRound (crcRound (crcRound (crcRound (crcRound (crcRound (crcRound (crc ^^^ b * 256))))))))

/-- The function `crc16xmodem` from `utils.ts`: init 0, polynomial 0x1021, no
reflection, no final xor. -/
def crc16xmodem (data : List Nat) : Nat :=
  data.foldl crc16Step 0

/-- An FE frame as decoded by `parseE87Frame`. -/
structure E87Frame where
  flag : Nat
  cmd : Nat
  length : Nat
  body : List Nat
  deriving Repr, DecidableEq

/-- The FE decoder `parseE87Frame` from `e87-protocol.ts`: magic `FE DC BA`, 1-byte flag,
1-byte cmd, big-endian 16-bit length, body, terminator `EF`. -/
def parseE87Frame (d : List Nat) : Option E87Frame :=
  if d.length < 8 then none
  else if d.getD 0 0 ≠ 0xfe ∨ d.getD 1 0 ≠ 0xdc ∨ d.getD 2 0 ≠ 0xba then none
  else if d.getD (d.length - 1) 0 ≠ 0xef then none
  else if ((d.drop 7).take (d.length - 8)).length ≠ d.getD 5 0 * 256 + d.getD 6 0 then none
  else some ⟨d.getD 3 0, d.getD 4 0, d.getD 5 0 * 256 + d.getD 6 0,
    (d.drop 7).take (d.length - 8)⟩

/-- The FE encoder `buildE87Frame` from `e87-protocol.ts`. -/
def buildE87Frame (flag cmd : Nat) (body : List Nat) : List Nat :=
  0xfe :: 0xdc :: 0xba :: (flag % 256) :: (cmd % 256) ::
    (body.length / 256 % 256) :: (body.length % 256) :: (body ++ [0xef])

/-- A Qix (9E) frame as decoded by `parseQixFrame`. -/
structure QixFrame where
  cmd : Nat
  flag : Nat
  payload : List Nat
  deriving Repr, DecidableEq

/-- The Qix encoder `buildQixFrame`: `[0x9E] [checksum] [flag] [cmd] [lenLo] [lenHi]
[payload...]` where the checksum is accumulated byte-wise as
`chk = (chk + b) & 0xff` over the 4 + N bytes that follow it. -/
def buildQixFrame (cmd : Nat) (payload : List Nat) (flag : Nat) : List Nat :=
  0x9e :: (([flag % 256, cmd % 256, payload.length % 256, payload.length / 256 % 256] ++
      payload).foldl (fun a b => (a + b) % 256) 0) ::
    (([flag % 256, cmd % 256, payload.length % 256, payload.length / 256 % 256] ++ payload))

/-- The Qix decoder `parseQixFrame`: rejects inputs shorter than 6 bytes or with the
wrong magic, reads the little-endian payload length at bytes 4-5 and
rejects when fewer bytes than declared are available. -/
def parseQixFrame (raw : List Nat) : Option QixFrame :=
  if raw.length < 6 ∨ raw.getD 0 0 ≠ 0x9e then none
  else if raw.length < 6 + (raw.getD 4 0 + raw.getD 5 0 * 256) then none
  else some ⟨raw.getD 3 0, raw.getD 2 0,
    (raw.drop 6).take (raw.getD 4 0 + raw.getD 5 0 * 256)⟩

/-- The signed 32-bit value produced by JavaScript bitwise operators. -/
def toInt32 (n : Nat) : Int :=
  if n % 4294967296 < 2147483648 then ((n % 4294967296 : Nat) : Int)
  else ((n % 4294967296 : Nat) : Int) - 4294967296

/-- A window ACK as read by `writeFileE87` from an 8-byte `0x1D` body:
`ackSeq = body[0]`, `ackStatus = body[1]`,
`winSize = (body[2] << 8) | body[3]`,
`nextOffset = (body[4] << 24) | (body[5] << 16) | (body[6] << 8) | body[7]`
(a signed 32-bit result in JavaScript). -/
structure WindowAck where
  waSeq : Nat
  status : Nat
  winSize : Nat
  nextOffset : Int
  deriving Repr, DecidableEq

/-- The window-ACK field extraction of `writeFileE87` (protocol lines
reading `currentAck.body`). -/
def parseWindowAck (b : List Nat) : WindowAck :=
  { waSeq := b.getD 0 0
    status := b.getD 1 0
    winSize := b.getD 2 0 * 256 + b.getD 3 0
    nextOffset := toInt32 (b.getD 4 0 * 16777216 + b.getD 5 0 * 65536 +
      b.getD 6 0 * 256 + b.getD 7 0) }

/-- The window size of an ACK body, `(body[2] << 8) | body[3]`. -/
def winAckWinSize (b : List Nat) : Nat :=
  b.getD 2 0 * 256 + b.getD 3 0

/-- The next offset of an ACK body as an unsigned big-endian value; it
agrees with the JavaScript signed 32-bit combination whenever
`body[4] < 0x80` (see `DeviceEnv.wf`). -/
def winAckNextOffsetNat (b : List Nat) : Nat :=
  b.getD 4 0 * 16777216 + b.getD 5 0 * 65536 + b.getD 6 0 * 256 + b.getD 7 0

/-- A message written by the upload code: raw bytes on the AE01 data
characteristic (auth traffic), an FE frame on the data characteristic,
or raw bytes on the FD02 control characteristic. -/
inductive TxMsg where
  | raw : List Nat → TxMsg
  | fe : Nat → Nat → List Nat → TxMsg
  | ctrl : List Nat → TxMsg
  deriving Repr, DecidableEq

/-- Body of one 0x01 data frame as assembled in `sendChunksAt`:
`[seq & 0xff, 0x1d, slot & 0xff, crc >> 8 & 0xff, crc & 0xff] ++ chunk`
where `crc = crc16xmodem(chunk)`. -/
def mkDataBody (seq slot : Nat) (chunk : List Nat) : List Nat :=
  seq % 256 :: 0x1d :: slot % 256 :: (crc16xmodem chunk / 256 % 256) ::
    (crc16xmodem chunk % 256) :: chunk

/-- The while loop of `sendChunksAt` with explicit slot, bytesSent and
seq state.  The fuel is instantiated with `winSize`, which bounds the
iteration count whenever `chunkSize > 0` (the session guarantees
`0 < chunkSize ≤ 4096`).  Returns the emitted data frames and the final
value of the shared `seq` variable. -/
def sendChunksGo (payload : List Nat) (chunkSize offset winSize : Nat)
    (slot bytesSent seq fuel : Nat) : List TxMsg × Nat :=
  match fuel with
  | 0 => ([], seq)
  | fuel + 1 =>
    if bytesSent < winSize then
      if offset + bytesSent < payload.length then
        let chunkLen := min chunkSize (min (winSize - bytesSent)
          (payload.length - (offset + bytesSent)))
        let chunk := (payload.drop (offset + bytesSent)).take chunkLen
        let rest := sendChunksGo payload chunkSize offset winSize
          ((slot + 1) % 8) (bytesSent + chunkLen) ((seq + 1) % 256) fuel
        (TxMsg.fe 0x80 0x01 (mkDataBody seq slot chunk) :: rest.1, rest.2)
      else ([], seq)
    else ([], seq)

/-- The function `sendChunksAt(offset, winSize)` from `writeFileE87`: slot starts at
0, bytesSent at 0, seq is the running session sequence. -/
def sendChunksAt (payload : List Nat) (chunkSize offset winSize seq : Nat) :
    List TxMsg × Nat :=
  sendChunksGo payload chunkSize offset winSize 0 0 seq winSize

/-- Upload kinds accepted by `writeFileE87`. -/
inductive UploadMode where
  | image | images | video | pattern
  deriving Repr, DecidableEq

/-- The path-response builder `buildFilePathResponse`: `[0x00, deviceSeq]` followed by the
UTF-16LE code units of `U+555C` + date string + extension and two
trailing zero bytes.  The date digits come from `new Date()` and are
supplied by the environment. -/
def buildFilePathResponse (deviceSeq : Nat) (mode : UploadMode)
    (dateDigits : List Nat) : List Nat :=
  0x00 :: deviceSeq % 256 ::
    (((0x555c :: dateDigits) ++
      (if mode = UploadMode.image then [0x2e, 0x6a, 0x70, 0x67]
       else [0x2e, 0x61, 0x76, 0x69])).foldr
        (fun c acc => c % 256 :: c / 256 % 256 :: acc) [0x00, 0x00])

/-- The reply body sent by `handleCompletion`:
`[0x00, frame.body[0] ?? seq]`. -/
def closeReplyBody (f : E87Frame) (seq : Nat) : List Nat :=
  [0x00, f.body.getD 0 seq % 256]

/-- The predicate of the data-loop `waitFrame`:
window ACK, FILE_COMPLETE or SESSION_CLOSE. -/
def isLoopWaitFrame (f : E87Frame) : Bool :=
  (f.flag == 0x80 && f.cmd == 0x1d) || f.cmd == 0x20 || f.cmd == 0x1c

/-- The predicate of the initial window-ACK `waitFrame`. -/
def isWinAckFrame (f : E87Frame) : Bool :=
  f.flag == 0x80 && f.cmd == 0x1d

/-- The queue scan of `waitForNotificationFrame`: return the first
queued frame matching the predicate, removing it and keeping the rest
in order. -/
def findAndRemove (p : E87Frame → Bool) : List E87Frame →
    Option (E87Frame × List E87Frame)
  | [] => none
  | f :: rest =>
    if p f then some (f, rest)
    else match findAndRemove p rest with
      | none => none
      | some (g, r) => some (g, f :: r)

/-- Terminal result of one modelled upload run.  `failed k` records the
phase that threw: 1-3 auth waits, 0x21/0x27/0x1b the fatal ACK waits,
29 the initial window-ACK wait, 30/31 the data-loop waits, 99 exhausted
fuel, 100 the size limit. -/
inductive RunResult where
  | complete : RunResult
  | failed : Nat → RunResult
  deriving Repr, DecidableEq

/-- The per-iteration window emission of the data loop: when the
current frame is a `0x1D` ACK with an 8-byte body, run `sendChunksAt`
at the ACK's offset and window size; otherwise send nothing. -/
def ackStep (payload : List Nat) (cs : Nat) (currentAck : E87Frame)
    (seq : Nat) : List TxMsg × Nat :=
  if currentAck.cmd = 0x1d ∧ 8 ≤ currentAck.body.length then
    sendChunksAt payload cs (winAckNextOffsetNat currentAck.body)
      (winAckWinSize currentAck.body) seq
  else ([], seq)

/-- The device-driven data-transfer loop of `writeFileE87` (the
`while (!done)` loop).  `currentAck` is the last received loop frame;
a window ACK with an 8-byte body triggers `sendChunksAt`.  The cmd 0x20
fast-path auto-responder is modelled separately (`sysStep`);
here `handled` is the `fileCompleteHandled` flag as seen by the main
loop. -/
def uploadLoop (payload : List Nat) (cs : Nat) (mode : UploadMode)
    (dateDigits : List Nat) (seq : Nat) (currentAck : E87Frame)
    (frames : List E87Frame) (handled : Bool) (fuel : Nat) :
    List TxMsg × RunResult :=
  match fuel with
  | 0 => ([], RunResult.failed 99)
  | fuel + 1 =>
    let step := ackStep payload cs currentAck seq
    match findAndRemove isLoopWaitFrame frames with
    | none => (step.1, RunResult.failed 30)
    | some (f, rest) =>
      if f.cmd = 0x20 ∧ f.flag = 0xc0 then
        let pathMsgs := if handled then [] else
          [TxMsg.fe 0x00 0x20 (buildFilePathResponse (f.body.getD 0 step.2) mode dateDigits)]
        match findAndRemove (fun g => g.cmd == 0x1c) rest with
        | none => (step.1 ++ pathMsgs, RunResult.failed 31)
        | some (g, _) =>
          (step.1 ++ pathMsgs ++ [TxMsg.fe 0x00 0x1c (closeReplyBody g step.2)],
            RunResult.complete)
      else if f.cmd = 0x1c then
        (step.1 ++ [TxMsg.fe 0x00 0x1c (closeReplyBody f step.2)], RunResult.complete)
      else
        let rec2 := uploadLoop payload cs mode dateDigits step.2 f rest handled fuel
        (step.1 ++ rec2.1, rec2.2)

/-- The device side of one run, as the data the host waits on: whether
each awaited auth reply and fatal ACK arrives, the body of the 0x1B
(metadata) ACK, and the FE frames matched by the data-loop waits.
`hostRand`, `encResp`, `timePayload`, `nameBytes`, `r1`, `r2` and
`dateDigits` stand for the random, clock and crypto inputs of the run
(`getRandomAuthData`, `getEncryptedAuthData`, `new Date()`,
`randomTempName`, `Math.random`). -/
structure DeviceEnv where
  hostRand : List Nat
  encResp : List Nat
  auth1 : Bool
  auth2 : Bool
  auth3 : Bool
  timePayload : List Nat
  ack21 : Bool
  ack27 : Bool
  nameBytes : List Nat
  r1 : Nat
  r2 : Nat
  metaAck : Option (List Nat)
  loopFrames : List E87Frame
  dateDigits : List Nat
  mode : UploadMode
  deriving Repr, DecidableEq

/-- Well-formed device behaviour: every loop frame's fifth body byte is
below 0x80, so the unsigned big-endian reading of `next_offset` used by
the model agrees with the JavaScript signed 32-bit combination. -/
def DeviceEnv.wf (env : DeviceEnv) : Prop :=
  ∀ f ∈ env.loopFrames, f.body.getD 4 0 < 128

/-- The chunk-size adoption after the 0x1B ACK: the device value
`(body[2] << 8) | body[3]` when the body has at least 4 bytes, with
fallback to 490 when it is 0 or above 4096. -/
def chunkSizeOf (ab : List Nat) : Nat :=
  if 4 ≤ ab.length then
    (if ab.getD 2 0 * 256 + ab.getD 3 0 = 0 ∨
        4096 < ab.getD 2 0 * 256 + ab.getD 3 0 then 490
     else ab.getD 2 0 * 256 + ab.getD 3 0)
  else 490

/-- One run of `writeFileE87` (auth handshake, phases 1-8, then the
windowed data transfer), returning the messages written and the
outcome.  The `seqCounter` rebindings mirror the mutations of the
source's counter variable. -/
def writeFileE87Run (payload : List Nat) (env : DeviceEnv) :
    List TxMsg × RunResult :=
  let seqCounter := 0x00
  let t := [TxMsg.raw env.hostRand]
  if env.auth1 = false then (t, RunResult.failed 1) else
  let t := t ++ [TxMsg.raw [0x02, 0x70, 0x61, 0x73, 0x73]]
  if env.auth2 = false then (t, RunResult.failed 2) else
  let t := t ++ [TxMsg.raw env.encResp]
  if env.auth3 = false then (t, RunResult.failed 3) else
  let t := t ++ [TxMsg.fe 0xc0 0x06 [0x02, 0x00, 0x01]]
  let seqCounter := 0x01
  let t := t ++ [TxMsg.ctrl [0x9e, 0xbd, 0x0b, 0x60, 0x0d, 0x00, 0x03],
    TxMsg.ctrl env.timePayload,
    TxMsg.ctrl [0x9e, 0x20, 0x08, 0x16, 0x01, 0x00, 0x01],
    TxMsg.ctrl [0x9e, 0xb5, 0x0b, 0x29, 0x01, 0x00, 0x80]]
  let t := t ++ [TxMsg.fe 0xc0 0x03
    [seqCounter % 256, 0xff, 0xff, 0xff, 0xff, 0x01]]
  let seqCounter := seqCounter + 1
  let t := t ++ [TxMsg.ctrl [0x9e, 0xd3, 0x0b, 0xc6, 0x01, 0x00, 0x01],
    TxMsg.ctrl [0x9e, 0x30, 0x08, 0x20, 0x02, 0x00, 0xff, 0x07]]
  let t := t ++ [TxMsg.fe 0xc0 0x07
    [seqCounter % 256, 0xff, 0xff, 0xff, 0xff, 0xff]]
  let seqCounter := seqCounter + 1
  let t := t ++ [TxMsg.ctrl [0x9e, 0x2b, 0x08, 0xff, 0x02, 0x00, 0x22, 0x00],
    TxMsg.ctrl [0x9e, 0x2d, 0x08, 0xff, 0x02, 0x00, 0x24, 0x00],
    TxMsg.ctrl [0x9e, 0xb5, 0x0b, 0x29, 0x01, 0x00, 0x80],
    TxMsg.ctrl [0x9e, 0xd3, 0x0b, 0xc6, 0x01, 0x00, 0x01],
    TxMsg.ctrl [0x9e, 0xf4, 0x0b, 0xdc, 0x01, 0x00, 0x0c]]
  let t := t ++ [TxMsg.fe 0xc0 0x21 [seqCounter % 256, 0x00]]
  let seqCounter := seqCounter + 1
  if env.ack21 = false then (t, RunResult.failed 0x21) else
  let t := t ++ [TxMsg.fe 0xc0 0x27
    [seqCounter % 256, 0x00, 0x00, 0x00, 0x00, 0x02, 0x01]]
  let seqCounter := seqCounter + 1
  if env.ack27 = false then (t, RunResult.failed 0x27) else
  let fileCrc := crc16xmodem payload
  let metaBody := seqCounter % 256 ::
    ([payload.length / 16777216 % 256, payload.length / 65536 % 256,
      payload.length / 256 % 256, payload.length % 256,
      fileCrc / 256 % 256, fileCrc % 256, env.r1 % 256, env.r2 % 256] ++
      (env.nameBytes.map (fun b => b % 256) ++ [0x00]))
  let seqCounter := seqCounter + 1
  let t := t ++ [TxMsg.fe 0xc0 0x1b metaBody]
  match env.metaAck with
  | none => (t, RunResult.failed 0x1b)
  | some ab =>
    let cs := chunkSizeOf ab
    match findAndRemove isWinAckFrame env.loopFrames with
    | none => (t, RunResult.failed 29)
    | some (first, rest) =>
      let lp := uploadLoop payload cs env.mode env.dateDigits seqCounter first
        rest false (rest.length + 1)
      (t ++ lp.1, lp.2)

/-- The constant `MAX_UPLOAD_BYTES` from `avi-preview.ts` / `image-processing`. -/
def MAX_UPLOAD_BYTES : Nat := 2000000

/-- The function `startUpload` from `pattern-generators.ts`: the size check rejects
oversized payloads before `writeFileE87` runs. -/
def startUploadRun (payload : List Nat) (env : DeviceEnv) :
    List TxMsg × RunResult :=
  if MAX_UPLOAD_BYTES < payload.length then ([], RunResult.failed 100)
  else writeFileE87Run payload env

/-- Recognizer for 0x01 data frames (`flag=0x80, cmd=0x01`). -/
def isDataFrame : TxMsg → Bool
  | TxMsg.fe flag cmd _ => flag == 0x80 && cmd == 0x01
  | _ => false

/-- The first body byte (the sequence byte) of each emitted 0x01 data
frame, in emission order. -/
def dataSeqBytes (ms : List TxMsg) : List Nat :=
  ms.filterMap fun m => match m with
    | TxMsg.fe flag cmd body =>
      if flag == 0x80 && cmd == 0x01 then some (body.getD 0 0) else none
    | _ => none

/-- Predicate `ConsecFrom s l`: the bytes `l` are `s % 256, (s+1) % 256, ...`. -/
def ConsecFrom : Nat → List Nat → Prop
  | _, [] => True
  | s, b :: rest => b = s % 256 ∧ ConsecFrom (s + 1) rest

/-- The FE request bodies sent with `flag = 0xC0` and the given cmd. -/
def sentReqBodies (ms : List TxMsg) (c : Nat) : List (List Nat) :=
  ms.filterMap fun m => match m with
    | TxMsg.fe flag cmd body =>
      if flag == 0xc0 && cmd == c then some body else none
    | _ => none

/-- The metadata (cmd 0x1B) body of a run: consumed counter value 5,
big-endian file size, big-endian whole-file CRC, two random bytes, the
temp name and a terminating zero.  Derived shape used to state what a
run writes. -/
def metaBodyOf (payload : List Nat) (env : DeviceEnv) : List Nat :=
  0x05 :: ([payload.length / 16777216 % 256, payload.length / 65536 % 256,
    payload.length / 256 % 256, payload.length % 256,
    crc16xmodem payload / 256 % 256, crc16xmodem payload % 256,
    env.r1 % 256, env.r2 % 256] ++
    (env.nameBytes.map (fun b => b % 256) ++ [0x00]))

/-- Derived shape of everything a run writes before the data transfer
(auth bytes, phase 1-8 FE requests and 9E control writes), when all
fatal waits succeed. -/
def metaPhaseTrace (payload : List Nat) (env : DeviceEnv) : List TxMsg :=
  [TxMsg.raw env.hostRand,
   TxMsg.raw [0x02, 0x70, 0x61, 0x73, 0x73],
   TxMsg.raw env.encResp,
   TxMsg.fe 0xc0 0x06 [0x02, 0x00, 0x01],
   TxMsg.ctrl [0x9e, 0xbd, 0x0b, 0x60, 0x0d, 0x00, 0x03],
   TxMsg.ctrl env.timePayload,
   TxMsg.ctrl [0x9e, 0x20, 0x08, 0x16, 0x01, 0x00, 0x01],
   TxMsg.ctrl [0x9e, 0xb5, 0x0b, 0x29, 0x01, 0x00, 0x80],
   TxMsg.fe 0xc0 0x03 [0x01, 0xff, 0xff, 0xff, 0xff, 0x01],
   TxMsg.ctrl [0x9e, 0xd3, 0x0b, 0xc6, 0x01, 0x00, 0x01],
   TxMsg.ctrl [0x9e, 0x30, 0x08, 0x20, 0x02, 0x00, 0xff, 0x07],
   TxMsg.fe 0xc0 0x07 [0x02, 0xff, 0xff, 0xff, 0xff, 0xff],
   TxMsg.ctrl [0x9e, 0x2b, 0x08, 0xff, 0x02, 0x00, 0x22, 0x00],
   TxMsg.ctrl [0x9e, 0x2d, 0x08, 0xff, 0x02, 0x00, 0x24, 0x00],
   TxMsg.ctrl [0x9e, 0xb5, 0x0b, 0x29, 0x01, 0x00, 0x80],
   TxMsg.ctrl [0x9e, 0xd3, 0x0b, 0xc6, 0x01, 0x00, 0x01],
   TxMsg.ctrl [0x9e, 0xf4, 0x0b, 0xdc, 0x01, 0x00, 0x0c],
   TxMsg.fe 0xc0 0x21 [0x03, 0x00],
   TxMsg.fe 0xc0 0x27 [0x04, 0x00, 0x00, 0x00, 0x00, 0x02, 0x01],
   TxMsg.fe 0xc0 0x1b (metaBodyOf payload env)]

/-- A concrete window ACK frame used by witnesses: window of 5 bytes at
offset 0. -/
def witAckFrame : E87Frame :=
  ⟨0x80, 0x1d, 8, [0x01, 0x00, 0x00, 0x05, 0x00, 0x00, 0x00, 0x00]⟩

/-- A concrete SESSION_CLOSE frame with device seq 7 and non-zero
status 5, used by witnesses and the completion counterexample. -/
def witCloseFrame : E87Frame :=
  ⟨0xc0, 0x1c, 2, [0x07, 0x05]⟩

/-- A concrete device environment whose close frame carries non-zero
status 5 and that otherwise completes every wait. -/
def witEnv : DeviceEnv :=
  { hostRand := [0x00], encResp := [0x01],
    auth1 := true, auth2 := true, auth3 := true,
    timePayload := [0x9e, 0x45], ack21 := true, ack27 := true,
    nameBytes := [0x61], r1 := 0, r2 := 0,
    metaAck := some [0x00, 0x05, 0x01, 0xea],
    loopFrames := [witAckFrame, witCloseFrame],
    dateDigits := [], mode := UploadMode.image }

/-- A device environment that never produces a window ACK. -/
def witEnvNoAck : DeviceEnv :=
  { witEnv with loopFrames := [witCloseFrame] }

/-- Program counter of the main loop, at its await points: at the top
of the loop (`waiting`), inside the `await sendE87Frame(0x00, 0x20, …)`
of the FILE_COMPLETE branch (`sending20` — the write is already issued,
`fileCompleteHandled` is not yet set), waiting for SESSION_CLOSE after
that branch (`waitingClose`), or done (`finished`). -/
inductive MainPC where
  | waiting | sending20 | waitingClose | finished
  deriving Repr, DecidableEq

/-- Joint state of the cmd 0x20 machinery: the `fileCompleteAutoRespond`
and `fileCompleteHandled` flags, the notification queue and the main
loop position. -/
structure SysState where
  armed : Bool
  handled : Bool
  queue : List E87Frame
  pc : MainPC
  deriving Repr, DecidableEq

/-- An event of the interleaved execution: a notification arrival
(which runs the queue listener and the auto-responder synchronously),
or the main loop resuming up to its next await point.  Arrivals may
occur between any two main-loop steps — in particular while the main
loop's own path-response write is in flight (`sending20`). -/
inductive Ev where
  | arrive : E87Frame → Ev
  | step : Ev
  deriving Repr, DecidableEq

/-- FILE_COMPLETE command frames: `cmd=0x20, flag=0xC0`. -/
def is20c0 (f : E87Frame) : Bool :=
  f.cmd == 0x20 && f.flag == 0xc0

/-- The bounded queue push of `onNotification` (cap 200, eldest
dropped). -/
def pushCap (q : List E87Frame) (f : E87Frame) : List E87Frame :=
  if 200 < (q ++ [f]).length then (q ++ [f]).drop 1 else q ++ [f]

/-- One event of the interleaved system; the second component counts
FILE_COMPLETE path-response writes issued by that event.  On `arrive`,
the frame is queued and the auto-responder fires when armed and not yet
handled, setting `fileCompleteHandled` before issuing its write.  On
`step`, the main loop advances: dequeue via the loop predicate, handle
FILE_COMPLETE (write the path response only when not yet handled; the
flag is set only after the write completes, i.e. at the next step),
handle SESSION_CLOSE (disarm, finish), or treat the frame as the next
window ACK. -/
def sysStep (s : SysState) : Ev → SysState × Nat
  | Ev.arrive f =>
    if s.armed && !s.handled && is20c0 f then
      ({ s with queue := pushCap s.queue f, handled := true }, 1)
    else
      ({ s with queue := pushCap s.queue f }, 0)
  | Ev.step =>
    match s.pc with
    | MainPC.waiting =>
      match findAndRemove isLoopWaitFrame s.queue with
      | none => (s, 0)
      | some (f, rest) =>
        if is20c0 f then
          if s.handled then ({ s with queue := rest, pc := MainPC.waitingClose }, 0)
          else ({ s with queue := rest, pc := MainPC.sending20 }, 1)
        else if f.cmd == 0x1c then
          ({ s with queue := rest, pc := MainPC.finished, armed := false }, 0)
        else
          ({ s with queue := rest }, 0)
    | MainPC.sending20 => ({ s with handled := true, pc := MainPC.waitingClose }, 0)
    | MainPC.waitingClose =>
      match findAndRemove (fun g => g.cmd == 0x1c) s.queue with
      | none => (s, 0)
      | some (_, rest) =>
        ({ s with queue := rest, pc := MainPC.finished, armed := false }, 0)
    | MainPC.finished => (s, 0)

/-- Run a schedule of events, summing the path-response writes. -/
def sysRun : SysState → List Ev → SysState × Nat
  | s, [] => (s, 0)
  | s, e :: evs =>
    ((sysRun (sysStep s e).1 evs).1, (sysStep s e).2 + (sysRun (sysStep s e).1 evs).2)

/-- The state at the start of the data loop: auto-responder armed,
`fileCompleteHandled` false, `q0` the frames already queued (arrived
before arming, e.g. during the metadata phases). -/
def initState (q0 : List E87Frame) : SysState :=
  { armed := true, handled := false, queue := q0, pc := MainPC.waiting }

/-- Path-response write budget of a state: one main-loop write (only
available at `waiting`) plus one auto-responder write (only available
while `fileCompleteHandled` is false). -/
def writeAllowance (s : SysState) : Nat :=
  (match s.pc with
   | MainPC.waiting => 1
   | _ => 0) +
  (if s.handled then 0 else 1)

/-- Invariant of runs whose initial queue holds no FILE_COMPLETE
command frame: the auto-responder has disarmed only at `finished`, the
main loop never sits inside its own path-response write, and every
queued FILE_COMPLETE frame arrived after the flag was set or after the
session finished. -/
def CleanInv (s : SysState) : Prop :=
  (s.armed = false → s.pc = MainPC.finished) ∧
  s.pc ≠ MainPC.sending20 ∧
  (∀ f ∈ s.queue, is20c0 f = true → s.handled = true ∨ s.pc = MainPC.finished)

end E87

namespace E87

theorem crcRound_lt (c : Nat) : crcRound c < 65536 := by
  unfold crcRound
  split <;> exact Nat.mod_lt _ (by norm_num)

theorem crc16Step_lt (crc b : Nat) : crc16Step crc b < 65536 := by
  unfold crc16Step
  exact crcRound_lt _

theorem crc16xmodem_lt (data : List Nat) : crc16xmodem data < 65536 := by
  have aux : ∀ (l : List Nat) (init : Nat), init < 65536 → l.foldl crc16Step init < 65536 := by
    intro l
    induction l with
    | nil => intro init h; simpa using h
    | cons b rest ih =>
      intro init _
      simpa using ih (crc16Step init b) (crc16Step_lt init b)
  exact aux data 0 (by norm_num)

theorem getD_append_ge (l₁ l₂ : List Nat) (k : Nat) (hk : l₁.length ≤ k) :
    (l₁ ++ l₂).getD k 0 = l₂.getD (k - l₁.length) 0 := by
  simp [List.getD_eq_getElem?_getD, List.getElem?_append_right hk]

/-- C5: decoding an encoded FE frame returns the original flag, cmd,
length and body, for byte-sized flag and cmd and a body of at most
65535 bytes. -/
theorem parse_build_roundtrip (flag cmd : Nat) (body : List Nat)
    (hf : flag < 256) (hc : cmd < 256) (hl : body.length ≤ 65535) :
    parseE87Frame (buildE87Frame flag cmd body) =
      some ⟨flag, cmd, body.length, body⟩ := by
  have hflag : flag % 256 = flag := Nat.mod_eq_of_lt hf
  have hcmd : cmd % 256 = cmd := Nat.mod_eq_of_lt hc
  have hsplit : buildE87Frame flag cmd body =
      [0xfe, 0xdc, 0xba, flag, cmd, body.length / 256 % 256, body.length % 256] ++
        (body ++ [0xef]) := by
    simp [buildE87Frame, hflag, hcmd]
  rw [hsplit]
  unfold parseE87Frame
  have hlen : ([0xfe, 0xdc, 0xba, flag, cmd, body.length / 256 % 256, body.length % 256] ++
      (body ++ [0xef])).length = body.length + 8 := by
    simp
  rw [hlen]
  rw [if_neg (by omega)]
  have hg0 : ([0xfe, 0xdc, 0xba, flag, cmd, body.length / 256 % 256, body.length % 256] ++
      (body ++ [0xef])).getD 0 0 = 0xfe := by rfl
  have hg1 : ([0xfe, 0xdc, 0xba, flag, cmd, body.length / 256 % 256, body.length % 256] ++
      (body ++ [0xef])).getD 1 0 = 0xdc := by rfl
  have hg2 : ([0xfe, 0xdc, 0xba, flag, cmd, body.length / 256 % 256, body.length % 256] ++
      (body ++ [0xef])).getD 2 0 = 0xba := by rfl
  rw [if_neg (by simp [hg0, hg1, hg2])]
  have hterm : ([0xfe, 0xdc, 0xba, flag, cmd, body.length / 256 % 256, body.length % 256] ++
      (body ++ [0xef])).getD (body.length + 8 - 1) 0 = 0xef := by
    rw [getD_append_ge _ _ _ (by simp)]
    simp only [List.length_cons, List.length_nil]
    rw [getD_append_ge _ _ _ (by omega)]
    have : body.length + 8 - 1 - 7 - body.length = 0 := by omega
    rw [this]
    rfl
  rw [hterm]
  rw [if_neg (by simp)]
  have hdrop : ([0xfe, 0xdc, 0xba, flag, cmd, body.length / 256 % 256, body.length % 256] ++
      (body ++ [0xef])).drop 7 = body ++ [0xef] := by
    rfl
  have htake : (body ++ [0xef]).take (body.length + 8 - 8) = body := by
    have : body.length + 8 - 8 = body.length := by omega
    rw [this]
    exact List.take_left body [0xef]
  simp only [hdrop, htake]
  have hdecl : body.length / 256 % 256 * 256 + body.length % 256 = body.length := by
    omega
  have hg3 : ([0xfe, 0xdc, 0xba, flag, cmd, body.length / 256 % 256, body.length % 256] ++
      (body ++ [0xef])).getD 3 0 = flag := by rfl
  have hg4 : ([0xfe, 0xdc, 0xba, flag, cmd, body.length / 256 % 256, body.length % 256] ++
      (body ++ [0xef])).getD 4 0 = cmd := by rfl
  have hg5 : ([0xfe, 0xdc, 0xba, flag, cmd, body.length / 256 % 256, body.length % 256] ++
      (body ++ [0xef])).getD 5 0 = body.length / 256 % 256 := by rfl
  have hg6 : ([0xfe, 0xdc, 0xba, flag, cmd, body.length / 256 % 256, body.length % 256] ++
      (body ++ [0xef])).getD 6 0 = body.length % 256 := by rfl
  simp only [hg3, hg4, hg5, hg6, hdecl]
  rw [if_neg (by omega)]

/-- C5 witness: the round trip evaluated at a concrete frame. -/
theorem parse_build_roundtrip_witness :
    parseE87Frame (buildE87Frame 0x80 0x01 [0x06, 0x1d, 0x00]) =
      some ⟨0x80, 0x01, 3, [0x06, 0x1d, 0x00]⟩ :=
  parse_build_roundtrip 0x80 0x01 [0x06, 0x1d, 0x00] (by decide) (by decide) (by decide)

theorem take_three (d : List Nat) (h : 3 ≤ d.length) :
    d.take 3 = [d.getD 0 0, d.getD 1 0, d.getD 2 0] := by
  rcases d with _ | ⟨a, _ | ⟨b, _ | ⟨c, rest⟩⟩⟩ <;> simp_all

theorem getLast?_eq_getD (l : List Nat) (h : l ≠ []) :
    l.getLast? = some (l.getD (l.length - 1) 0) := by
  induction l with
  | nil => exact absurd rfl h
  | cons a t ih =>
    rcases t with _ | ⟨b, t2⟩
    · rfl
    · rw [List.getLast?_cons_cons]
      rw [ih (by simp)]
      simp

/-- C7: the FE decoder returns `none` exactly when the input is shorter
than 8 bytes, the magic is not `FE DC BA`, the final byte is not `EF`,
or the declared big-endian length at bytes 5-6 differs from the body
length (total length minus 8); otherwise it returns a decoded frame. -/
theorem parse_none_iff (d : List Nat) :
    parseE87Frame d = none ↔
      d.length < 8 ∨ d.take 3 ≠ [0xfe, 0xdc, 0xba] ∨ d.getLast? ≠ some 0xef ∨
        d.getD 5 0 * 256 + d.getD 6 0 ≠ d.length - 8 := by
  unfold parseE87Frame
  by_cases h8 : d.length < 8
  · simp [h8]
  rw [if_neg h8]
  have hne : d ≠ [] := by
    intro h
    rw [h] at h8
    simp at h8
  have e1 : (d.getD 0 0 ≠ 0xfe ∨ d.getD 1 0 ≠ 0xdc ∨ d.getD 2 0 ≠ 0xba) ↔
      d.take 3 ≠ [0xfe, 0xdc, 0xba] := by
    rw [take_three d (by omega)]
    simp only [ne_eq, List.cons.injEq, and_true]
    tauto
  have e2 : (d.getD (d.length - 1) 0 ≠ 0xef) ↔ d.getLast? ≠ some 0xef := by
    rw [getLast?_eq_getD d hne]
    simp
  have hbodylen : ((d.drop 7).take (d.length - 8)).length = d.length - 8 := by
    simp
    omega
  by_cases hm : d.getD 0 0 ≠ 0xfe ∨ d.getD 1 0 ≠ 0xdc ∨ d.getD 2 0 ≠ 0xba
  · rw [if_pos hm]
    simp [h8, e1.mp hm]
  · rw [if_neg hm]
    have hm2 := (not_iff_not.mpr e1).mp hm
    by_cases ht : d.getD (d.length - 1) 0 ≠ 0xef
    · rw [if_pos ht]
      simp [h8, e2.mp ht]
    · rw [if_neg ht]
      have ht2 := (not_iff_not.mpr e2).mp ht
      by_cases hd : ((d.drop 7).take (d.length - 8)).length ≠ d.getD 5 0 * 256 + d.getD 6 0
      · rw [if_pos hd]
        rw [hbodylen] at hd
        simp only [h8, false_or]
        simp only [List.getD_eq_getElem?_getD] at hd
        simp [hm2, ht2]
        omega
      · rw [if_neg hd]
        rw [hbodylen] at hd
        simp only [h8, false_or]
        simp only [List.getD_eq_getElem?_getD] at hd
        push_neg at hm2 ht2 hd
        simp [hm2, ht2, hd]

theorem foldl_addmod (l : List Nat) : ∀ a : Nat,
    l.foldl (fun x y => (x + y) % 256) (a % 256) = (a + l.sum) % 256 := by
  induction l with
  | nil => intro a; simp
  | cons b t ih =>
    intro a
    have h1 : (a % 256 + b) % 256 = (a + b) % 256 := by omega
    simp only [List.foldl_cons, h1, ih (a + b), List.sum_cons]
    omega

/-- C8 counterexample: the 6-byte input `9E FF 00 00 00 00` has checksum
byte `0xFF`, while the bytes following it sum to 0, yet `parseQixFrame`
accepts it — the decoder does not validate the checksum. -/
theorem qix_checksum_not_validated :
    (parseQixFrame [0x9e, 0xff, 0, 0, 0, 0]).isSome = true ∧
      [0x9e, 0xff, 0, 0, 0, 0].getD 1 0 ≠
        (([0x9e, 0xff, 0, 0, 0, 0].drop 2).sum) % 256 := by
  constructor
  · rfl
  · decide

/-- C8 amended: the Qix decoder validates only the magic and the length
(it accepts exactly the inputs of length at least 6 that start with
`0x9E` and contain the declared payload), while the encoder
`buildQixFrame` establishes the invariant that the checksum byte equals
the sum of all following bytes mod 256. -/
theorem qix_codec_amended :
    (∀ raw : List Nat, parseQixFrame raw ≠ none ↔
        6 ≤ raw.length ∧ raw.getD 0 0 = 0x9e ∧
          6 + (raw.getD 4 0 + raw.getD 5 0 * 256) ≤ raw.length) ∧
      (∀ (cmd : Nat) (payload : List Nat) (flag : Nat),
        (buildQixFrame cmd payload flag).getD 1 0 =
          ((buildQixFrame cmd payload flag).drop 2).sum % 256) := by
  constructor
  · intro raw
    unfold parseQixFrame
    by_cases h1 : raw.length < 6 ∨ raw.getD 0 0 ≠ 0x9e
    · rw [if_pos h1]
      simp only [ne_eq, not_true_eq_false, false_iff]
      intro ⟨a, b, c⟩
      rcases h1 with h | h
      · omega
      · exact h b
    · rw [if_neg h1]
      push_neg at h1
      by_cases h2 : raw.length < 6 + (raw.getD 4 0 + raw.getD 5 0 * 256)
      · rw [if_pos h2]
        simp only [ne_eq, not_true_eq_false, false_iff]
        intro ⟨a, b, c⟩
        omega
      · rw [if_neg h2]
        simp only [ne_eq, reduceCtorEq, not_false_eq_true, true_iff]
        exact ⟨by omega, h1.2, by omega⟩
  · intro cmd payload flag
    have hchk : ([flag % 256, cmd % 256, payload.length % 256,
        payload.length / 256 % 256] ++ payload).foldl (fun a b => (a + b) % 256) 0 =
        ([flag % 256, cmd % 256, payload.length % 256,
          payload.length / 256 % 256] ++ payload).sum % 256 := by
      have h0 : (0 : Nat) = 0 % 256 := by norm_num
      rw [h0, foldl_addmod]
      simp
    simp only [buildQixFrame, List.getD_cons_succ, List.getD_cons_zero, List.drop_succ_cons,
      List.drop_zero]
    exact hchk

theorem getD_lt_of_bounded (b : List Nat) (hb : ∀ x ∈ b, x < 256) (k : Nat) :
    b.getD k 0 < 256 := by
  rw [List.getD_eq_getElem?_getD]
  cases h : b[k]? with
  | none => simp
  | some v =>
    simp only [Option.getD_some]
    obtain ⟨hk, he⟩ := List.getElem?_eq_some_iff.mp h
    exact hb v (he ▸ List.getElem_mem hk)

theorem toInt32_of_lt (n : Nat) (h : n < 2147483648) : toInt32 n = (n : Int) := by
  unfold toInt32
  have h32 : n % 4294967296 = n := Nat.mod_eq_of_lt (by omega)
  rw [h32, if_pos h]

/-- C6 counterexample: for the 8-byte body `01 00 0F 50 80 00 00 00`,
bytes 4-7 big-endian denote 2147483648, but the JavaScript expression
`(body[4] << 24) | ...` yields the signed 32-bit value -2147483648, so
the parsed `nextOffset` is not the big-endian value. -/
theorem window_ack_nextOffset_sign_counterexample :
    (parseWindowAck [0x01, 0x00, 0x0f, 0x50, 0x80, 0x00, 0x00, 0x00]).nextOffset =
        (-2147483648 : Int) ∧
      (parseWindowAck [0x01, 0x00, 0x0f, 0x50, 0x80, 0x00, 0x00, 0x00]).nextOffset ≠
        ((0x80 * 16777216 + 0x00 * 65536 + 0x00 * 256 + 0x00 : Nat) : Int) := by
  constructor
  · rfl
  · intro h
    rw [show ((0x80 * 16777216 + 0x00 * 65536 + 0x00 * 256 + 0x00 : Nat) : Int) =
      (2147483648 : Int) by norm_num] at h
    rw [show (parseWindowAck [0x01, 0x00, 0x0f, 0x50, 0x80, 0x00, 0x00, 0x00]).nextOffset =
      (-2147483648 : Int) from rfl] at h
    norm_num at h

/-- C6 amended: a window-ACK body made of bytes parses as
`wa_seq = body[0]`, `status = body[1]`, big-endian `win_size` from bytes
2-3 and big-endian `next_offset` from bytes 4-7, provided byte 4 is
below 0x80 (so the signed 32-bit combination is the unsigned value). -/
theorem parse_window_ack_fields (b : List Nat) (hb : ∀ x ∈ b, x < 256)
    (h4 : b.getD 4 0 < 128) :
    parseWindowAck b = ⟨b.getD 0 0, b.getD 1 0, b.getD 2 0 * 256 + b.getD 3 0,
      ((b.getD 4 0 * 16777216 + b.getD 5 0 * 65536 + b.getD 6 0 * 256 + b.getD 7 0 : Nat) :
        Int)⟩ := by
  have h5 := getD_lt_of_bounded b hb 5
  have h6 := getD_lt_of_bounded b hb 6
  have h7 := getD_lt_of_bounded b hb 7
  unfold parseWindowAck
  congr 1
  exact toInt32_of_lt _ (by omega)

/-- C6 amended witness: the body `01 00 0F 50 00 00 01 EA` parses as
`wa_seq = 1`, `status = 0`, `win_size = 3920`, `next_offset = 490`. -/
theorem parse_window_ack_fields_witness :
    parseWindowAck [0x01, 0x00, 0x0f, 0x50, 0x00, 0x00, 0x01, 0xea] =
      ⟨1, 0, 3920, (490 : Int)⟩ := by
  have h := parse_window_ack_fields [0x01, 0x00, 0x0f, 0x50, 0x00, 0x00, 0x01, 0xea]
    (by decide) (by decide)
  rw [h]
  norm_num

theorem sendChunksGo_frame (payload : List Nat) (cs offset winSize : Nat) :
    ∀ (fuel slot bytesSent seq : Nat), slot < 8 →
    ∀ (i : Nat)
      (hi : i < (sendChunksGo payload cs offset winSize slot bytesSent seq fuel).1.length),
    ∃ chunk : List Nat,
      (sendChunksGo payload cs offset winSize slot bytesSent seq fuel).1.getD i (TxMsg.raw []) =
        TxMsg.fe 0x80 0x01 ((seq + i) % 256 :: 0x1d :: (slot + i) % 8 ::
          (crc16xmodem chunk / 256 % 256) :: (crc16xmodem chunk % 256) :: chunk) := by
  intro fuel
  induction fuel with
  | zero =>
    intro slot bytesSent seq hslot i hi
    simp [sendChunksGo] at hi
  | succ fuel ih =>
    intro slot bytesSent seq hslot i hi
    by_cases h1 : bytesSent < winSize
    · by_cases h2 : offset + bytesSent < payload.length
      · have hstep : sendChunksGo payload cs offset winSize slot bytesSent seq (fuel + 1) =
            (TxMsg.fe 0x80 0x01 (mkDataBody seq slot
              ((payload.drop (offset + bytesSent)).take (min cs (min (winSize - bytesSent)
                (payload.length - (offset + bytesSent)))))) ::
              (sendChunksGo payload cs offset winSize ((slot + 1) % 8)
                (bytesSent + min cs (min (winSize - bytesSent)
                  (payload.length - (offset + bytesSent)))) ((seq + 1) % 256) fuel).1,
             (sendChunksGo payload cs offset winSize ((slot + 1) % 8)
                (bytesSent + min cs (min (winSize - bytesSent)
                  (payload.length - (offset + bytesSent)))) ((seq + 1) % 256) fuel).2) := by
          rw [sendChunksGo]
          simp [h1, h2]
        rw [hstep] at hi ⊢
        match i with
        | 0 =>
          refine ⟨(payload.drop (offset + bytesSent)).take (min cs (min (winSize - bytesSent)
            (payload.length - (offset + bytesSent)))), ?_⟩
          simp only [List.getElem_cons_zero, mkDataBody]
          have e1 : seq % 256 = (seq + 0) % 256 := by omega
          have e2 : slot % 256 = (slot + 0) % 8 := by omega
          rw [e1, e2]
          rfl
        | j + 1 =>
          simp only [List.getD_cons_succ]
          simp only [List.length_cons] at hi
          obtain ⟨chunk, hc⟩ := ih ((slot + 1) % 8)
            (bytesSent + min cs (min (winSize - bytesSent)
              (payload.length - (offset + bytesSent)))) ((seq + 1) % 256)
            (Nat.mod_lt _ (by norm_num)) j (by omega)
          refine ⟨chunk, ?_⟩
          rw [hc]
          have e1 : ((seq + 1) % 256 + j) % 256 = (seq + (j + 1)) % 256 := by omega
          have e2 : ((slot + 1) % 8 + j) % 8 = (slot + (j + 1)) % 8 := by omega
          rw [e1, e2]
      · exfalso
        rw [sendChunksGo] at hi
        simp [h1, h2] at hi
    · exfalso
      rw [sendChunksGo] at hi
      simp [h1] at hi

/-- C1: every 0x01 data frame emitted by `sendChunksAt` has body
`[seq, 0x1D, slot, crc_hi, crc_lo] ++ chunk` where the seq byte is the
running sequence mod 256, the slot is the frame index in the window
mod 8 (starting at 0), and the two CRC bytes are the big-endian
CRC-16/XMODEM of the chunk bytes only. -/
theorem data_frame_format (payload : List Nat) (cs offset winSize seq : Nat)
    (i : Nat) (hi : i < (sendChunksAt payload cs offset winSize seq).1.length) :
    ∃ chunk : List Nat,
      (sendChunksAt payload cs offset winSize seq).1.getD i (TxMsg.raw []) =
        TxMsg.fe 0x80 0x01 ((seq + i) % 256 :: 0x1d :: i % 8 ::
          (crc16xmodem chunk / 256 % 256) :: (crc16xmodem chunk % 256) :: chunk) ∧
      256 * (crc16xmodem chunk / 256 % 256) + (crc16xmodem chunk % 256) =
        crc16xmodem chunk := by
  obtain ⟨chunk, hc⟩ := sendChunksGo_frame payload cs offset winSize winSize 0 0 seq
    (by norm_num) i hi
  refine ⟨chunk, ?_, ?_⟩
  · rw [show (0 + i) % 8 = i % 8 by omega] at hc
    exact hc
  · have := crc16xmodem_lt chunk
    omega

/-- C1 witness: the first frame of a concrete window at seq 6. -/
theorem data_frame_format_witness :
    ∃ chunk : List Nat,
      (sendChunksAt [1, 2, 3, 4, 5] 2 0 5 6).1.getD 0 (TxMsg.raw []) =
        TxMsg.fe 0x80 0x01 ((6 + 0) % 256 :: 0x1d :: 0 % 8 ::
          (crc16xmodem chunk / 256 % 256) :: (crc16xmodem chunk % 256) :: chunk) ∧
      256 * (crc16xmodem chunk / 256 % 256) + (crc16xmodem chunk % 256) =
        crc16xmodem chunk :=
  data_frame_format [1, 2, 3, 4, 5] 2 0 5 6 0 (by decide)

theorem sendChunksGo_emit (payload : List Nat)
    (cs offset winSize slot bytesSent seq fuel : Nat)
    (h1 : bytesSent < winSize) (h2 : offset + bytesSent < payload.length) :
    sendChunksGo payload cs offset winSize slot bytesSent seq (fuel + 1) =
      (TxMsg.fe 0x80 0x01 (mkDataBody seq slot ((payload.drop (offset + bytesSent)).take
          (min cs (min (winSize - bytesSent) (payload.length - (offset + bytesSent)))))) ::
        (sendChunksGo payload cs offset winSize ((slot + 1) % 8)
          (bytesSent + min cs (min (winSize - bytesSent)
            (payload.length - (offset + bytesSent)))) ((seq + 1) % 256) fuel).1,
       (sendChunksGo payload cs offset winSize ((slot + 1) % 8)
          (bytesSent + min cs (min (winSize - bytesSent)
            (payload.length - (offset + bytesSent)))) ((seq + 1) % 256) fuel).2) := by
  rw [sendChunksGo]
  simp [h1, h2]

theorem sendChunksGo_stop (payload : List Nat)
    (cs offset winSize slot bytesSent seq fuel : Nat)
    (h : ¬ bytesSent < winSize ∨ ¬ offset + bytesSent < payload.length) :
    sendChunksGo payload cs offset winSize slot bytesSent seq fuel = ([], seq) := by
  match fuel with
  | 0 => rw [sendChunksGo]
  | fuel + 1 =>
    rw [sendChunksGo]
    rcases h with h | h
    · simp [h]
    · simp [h]

theorem dataSeqBytes_nil : dataSeqBytes [] = [] := rfl

theorem dataSeqBytes_append (l1 l2 : List TxMsg) :
    dataSeqBytes (l1 ++ l2) = dataSeqBytes l1 ++ dataSeqBytes l2 :=
  List.filterMap_append _ _ _

theorem sentReqBodies_append (l1 l2 : List TxMsg) (c : Nat) :
    sentReqBodies (l1 ++ l2) c = sentReqBodies l1 c ++ sentReqBodies l2 c :=
  List.filterMap_append _ _ _

theorem dataSeqBytes_cons_data (b : List Nat) (ms : List TxMsg) :
    dataSeqBytes (TxMsg.fe 0x80 0x01 b :: ms) = b.getD 0 0 :: dataSeqBytes ms := rfl

theorem consecFrom_congr (l : List Nat) : ∀ s t : Nat, s % 256 = t % 256 →
    ConsecFrom s l → ConsecFrom t l := by
  induction l with
  | nil => intro s t _ _; trivial
  | cons b rest ih =>
    intro s t hst hc
    obtain ⟨hb, hrest⟩ := hc
    exact ⟨by omega, ih (s + 1) (t + 1) (by omega) hrest⟩

theorem consecFrom_append (l1 l2 : List Nat) : ∀ s : Nat, ConsecFrom s l1 →
    ConsecFrom (s + l1.length) l2 → ConsecFrom s (l1 ++ l2) := by
  induction l1 with
  | nil =>
    intro s _ h2
    simpa using h2
  | cons b rest ih =>
    intro s h1 h2
    obtain ⟨hb, hrest⟩ := h1
    refine ⟨hb, ih (s + 1) hrest ?_⟩
    have : s + 1 + rest.length = s + (rest.length + 1) := by omega
    rw [this]
    simpa using h2

theorem sendChunksGo_bytes (payload : List Nat) (cs offset winSize : Nat) :
    ∀ fuel slot bytesSent seq : Nat,
    ConsecFrom seq (dataSeqBytes
      (sendChunksGo payload cs offset winSize slot bytesSent seq fuel).1) ∧
    (sendChunksGo payload cs offset winSize slot bytesSent seq fuel).2 % 256 =
      (seq + (dataSeqBytes
        (sendChunksGo payload cs offset winSize slot bytesSent seq fuel).1).length) % 256 := by
  intro fuel
  induction fuel with
  | zero =>
    intro slot bytesSent seq
    constructor
    · rw [sendChunksGo]
      trivial
    · rw [sendChunksGo]
      simp [dataSeqBytes_nil]
  | succ fuel ih =>
    intro slot bytesSent seq
    by_cases h1 : bytesSent < winSize
    · by_cases h2 : offset + bytesSent < payload.length
      · rw [sendChunksGo_emit payload cs offset winSize slot bytesSent seq fuel h1 h2]
        obtain ⟨ihc, ihs⟩ := ih ((slot + 1) % 8)
          (bytesSent + min cs (min (winSize - bytesSent)
            (payload.length - (offset + bytesSent)))) ((seq + 1) % 256)
        constructor
        · rw [dataSeqBytes_cons_data]
          refine ⟨rfl, ?_⟩
          exact consecFrom_congr _ ((seq + 1) % 256) (seq + 1) (by omega) ihc
        · rw [dataSeqBytes_cons_data]
          simp only [List.length_cons]
          omega
      · rw [sendChunksGo_stop payload cs offset winSize slot bytesSent seq (fuel + 1)
          (Or.inr h2)]
        exact ⟨trivial, by simp [dataSeqBytes_nil]⟩
    · rw [sendChunksGo_stop payload cs offset winSize slot bytesSent seq (fuel + 1)
        (Or.inl h1)]
      exact ⟨trivial, by simp [dataSeqBytes_nil]⟩

theorem ackStep_bytes (payload : List Nat) (cs : Nat) (ack : E87Frame) (seq : Nat) :
    ConsecFrom seq (dataSeqBytes (ackStep payload cs ack seq).1) ∧
    (ackStep payload cs ack seq).2 % 256 =
      (seq + (dataSeqBytes (ackStep payload cs ack seq).1).length) % 256 := by
  unfold ackStep
  split
  · exact sendChunksGo_bytes payload cs (winAckNextOffsetNat ack.body)
      (winAckWinSize ack.body) (winAckWinSize ack.body) 0 0 seq
  · exact ⟨trivial, by simp [dataSeqBytes_nil]⟩

theorem uploadLoop_dataSeqBytes (payload : List Nat) (cs : Nat) (mode : UploadMode)
    (dd : List Nat) : ∀ (fuel seq : Nat) (ack : E87Frame) (frames : List E87Frame)
    (handled : Bool),
    ConsecFrom seq (dataSeqBytes
      (uploadLoop payload cs mode dd seq ack frames handled fuel).1) := by
  intro fuel
  induction fuel with
  | zero =>
    intro seq ack frames handled
    rw [uploadLoop]
    trivial
  | succ fuel ih =>
    intro seq ack frames handled
    rw [uploadLoop]
    obtain ⟨hc, hs⟩ := ackStep_bytes payload cs ack seq
    cases hfind : findAndRemove isLoopWaitFrame frames with
    | none =>
      simp only [hfind]
      exact hc
    | some pr =>
      obtain ⟨f, rest⟩ := pr
      simp only [hfind]
      by_cases h20 : f.cmd = 0x20 ∧ f.flag = 0xc0
      · rw [if_pos h20]
        have hpath : dataSeqBytes (if handled = true then [] else
            [TxMsg.fe 0x00 0x20 (buildFilePathResponse
              (f.body.getD 0 (ackStep payload cs ack seq).2) mode dd)]) = [] := by
          by_cases hh : handled
          · simp [hh]
            rfl
          · simp [hh]
            rfl
        cases hfind2 : findAndRemove (fun g => g.cmd == 0x1c) rest with
        | none =>
          simp only [hfind2]
          rw [dataSeqBytes_append, hpath, List.append_nil]
          exact hc
        | some pr2 =>
          obtain ⟨g, r2⟩ := pr2
          simp only [hfind2]
          rw [dataSeqBytes_append, dataSeqBytes_append, hpath, List.append_nil]
          rw [show dataSeqBytes [TxMsg.fe 0x00 0x1c
            (closeReplyBody g (ackStep payload cs ack seq).2)] = [] from rfl]
          rw [List.append_nil]
          exact hc
      · rw [if_neg h20]
        by_cases h1c : f.cmd = 0x1c
        · rw [if_pos h1c]
          rw [dataSeqBytes_append]
          rw [show dataSeqBytes [TxMsg.fe 0x00 0x1c
            (closeReplyBody f (ackStep payload cs ack seq).2)] = [] from rfl]
          rw [List.append_nil]
          exact hc
        · rw [if_neg h1c]
          rw [dataSeqBytes_append]
          refine consecFrom_append _ _ seq hc ?_
          refine consecFrom_congr _ (ackStep payload cs ack seq).2 _ ?_
            (ih (ackStep payload cs ack seq).2 f rest handled)
          omega

theorem sendChunksGo_no_req (payload : List Nat) (cs offset winSize : Nat) (c : Nat) :
    ∀ fuel slot bytesSent seq : Nat,
    sentReqBodies (sendChunksGo payload cs offset winSize slot bytesSent seq fuel).1 c = [] := by
  intro fuel
  induction fuel with
  | zero =>
    intro slot bytesSent seq
    rw [sendChunksGo]
    rfl
  | succ fuel ih =>
    intro slot bytesSent seq
    by_cases h1 : bytesSent < winSize
    · by_cases h2 : offset + bytesSent < payload.length
      · rw [sendChunksGo_emit payload cs offset winSize slot bytesSent seq fuel h1 h2]
        have : sentReqBodies (TxMsg.fe 0x80 0x01 (mkDataBody seq slot
            ((payload.drop (offset + bytesSent)).take (min cs (min (winSize - bytesSent)
              (payload.length - (offset + bytesSent)))))) ::
            (sendChunksGo payload cs offset winSize ((slot + 1) % 8)
              (bytesSent + min cs (min (winSize - bytesSent)
                (payload.length - (offset + bytesSent)))) ((seq + 1) % 256) fuel).1) c =
            sentReqBodies ((sendChunksGo payload cs offset winSize ((slot + 1) % 8)
              (bytesSent + min cs (min (winSize - bytesSent)
                (payload.length - (offset + bytesSent)))) ((seq + 1) % 256) fuel).1) c := rfl
        rw [this]
        exact ih _ _ _
      · rw [sendChunksGo_stop payload cs offset winSize slot bytesSent seq (fuel + 1)
          (Or.inr h2)]
        rfl
    · rw [sendChunksGo_stop payload cs offset winSize slot bytesSent seq (fuel + 1)
        (Or.inl h1)]
      rfl

theorem ackStep_no_req (payload : List Nat) (cs : Nat) (ack : E87Frame) (seq c : Nat) :
    sentReqBodies (ackStep payload cs ack seq).1 c = [] := by
  unfold ackStep
  split
  · exact sendChunksGo_no_req payload cs (winAckNextOffsetNat ack.body)
      (winAckWinSize ack.body) c (winAckWinSize ack.body) 0 0 seq
  · rfl

theorem uploadLoop_no_req (payload : List Nat) (cs : Nat) (mode : UploadMode)
    (dd : List Nat) (c : Nat) : ∀ (fuel seq : Nat) (ack : E87Frame)
    (frames : List E87Frame) (handled : Bool),
    sentReqBodies (uploadLoop payload cs mode dd seq ack frames handled fuel).1 c = [] := by
  intro fuel
  induction fuel with
  | zero =>
    intro seq ack frames handled
    rw [uploadLoop]
    rfl
  | succ fuel ih =>
    intro seq ack frames handled
    rw [uploadLoop]
    cases hfind : findAndRemove isLoopWaitFrame frames with
    | none =>
      simp only [hfind]
      exact ackStep_no_req payload cs ack seq c
    | some pr =>
      obtain ⟨f, rest⟩ := pr
      simp only [hfind]
      have hpath : sentReqBodies (if handled = true then [] else
          [TxMsg.fe 0x00 0x20 (buildFilePathResponse
            (f.body.getD 0 (ackStep payload cs ack seq).2) mode dd)]) c = [] := by
        by_cases hh : handled
        · simp [hh]
          rfl
        · simp [hh]
          rfl
      by_cases h20 : f.cmd = 0x20 ∧ f.flag = 0xc0
      · rw [if_pos h20]
        cases hfind2 : findAndRemove (fun g => g.cmd == 0x1c) rest with
        | none =>
          simp only [hfind2]
          rw [sentReqBodies_append, hpath, List.append_nil]
          exact ackStep_no_req payload cs ack seq c
        | some pr2 =>
          obtain ⟨g, r2⟩ := pr2
          simp only [hfind2]
          rw [sentReqBodies_append, sentReqBodies_append, hpath, List.append_nil]
          rw [show sentReqBodies [TxMsg.fe 0x00 0x1c
            (closeReplyBody g (ackStep payload cs ack seq).2)] c = [] from rfl]
          rw [List.append_nil]
          exact ackStep_no_req payload cs ack seq c
      · rw [if_neg h20]
        by_cases h1c : f.cmd = 0x1c
        · rw [if_pos h1c]
          rw [sentReqBodies_append]
          rw [show sentReqBodies [TxMsg.fe 0x00 0x1c
            (closeReplyBody f (ackStep payload cs ack seq).2)] c = [] from rfl]
          rw [List.append_nil]
          exact ackStep_no_req payload cs ack seq c
        · rw [if_neg h1c]
          rw [sentReqBodies_append]
          rw [ackStep_no_req payload cs ack seq c, ih (ackStep payload cs ack seq).2 f rest handled]
          rfl

theorem writeFileE87Run_noMeta_eq (payload : List Nat) (env : DeviceEnv)
    (h1 : env.auth1 = true) (h2 : env.auth2 = true) (h3 : env.auth3 = true)
    (h4 : env.ack21 = true) (h5 : env.ack27 = true) (hm : env.metaAck = none) :
    writeFileE87Run payload env = (metaPhaseTrace payload env, RunResult.failed 0x1b) := by
  unfold writeFileE87Run
  rw [h1, h2, h3, h4, h5, hm]
  simp [metaPhaseTrace, metaBodyOf]

theorem writeFileE87Run_noAck_eq (payload : List Nat) (env : DeviceEnv) (ab : List Nat)
    (h1 : env.auth1 = true) (h2 : env.auth2 = true) (h3 : env.auth3 = true)
    (h4 : env.ack21 = true) (h5 : env.ack27 = true) (hm : env.metaAck = some ab)
    (hf : findAndRemove isWinAckFrame env.loopFrames = none) :
    writeFileE87Run payload env = (metaPhaseTrace payload env, RunResult.failed 29) := by
  unfold writeFileE87Run
  rw [h1, h2, h3, h4, h5, hm]
  simp only [hf]
  simp [metaPhaseTrace, metaBodyOf, hf]

theorem writeFileE87Run_loop_eq (payload : List Nat) (env : DeviceEnv) (ab : List Nat)
    (first : E87Frame) (rest : List E87Frame)
    (h1 : env.auth1 = true) (h2 : env.auth2 = true) (h3 : env.auth3 = true)
    (h4 : env.ack21 = true) (h5 : env.ack27 = true) (hm : env.metaAck = some ab)
    (hf : findAndRemove isWinAckFrame env.loopFrames = some (first, rest)) :
    writeFileE87Run payload env =
      (metaPhaseTrace payload env ++
        (uploadLoop payload (chunkSizeOf ab) env.mode env.dateDigits 6 first rest false
          (rest.length + 1)).1,
       (uploadLoop payload (chunkSizeOf ab) env.mode env.dateDigits 6 first rest false
          (rest.length + 1)).2) := by
  unfold writeFileE87Run
  rw [h1, h2, h3, h4, h5, hm]
  simp only [hf]
  simp [metaPhaseTrace, metaBodyOf]

/-- C2: in a run where all fatal waits succeed, the session counter
semantics hold: cmd 0x06 carries the fixed literal body `02 00 01`
(no seq byte), the requests 0x03, 0x07, 0x21, 0x27, 0x1B carry 1, 2,
3, 4, 5 as their first body byte (the counter starts at 0, is set to 1
right after cmd 0x06 and is consumed-then-incremented by each request),
and the data frames start at the counter value 6 left after metadata,
each frame's seq byte being the previous plus one mod 256
(`ConsecFrom 6`). -/
theorem upload_sequence_counter (payload : List Nat) (env : DeviceEnv)
    (h1 : env.auth1 = true) (h2 : env.auth2 = true) (h3 : env.auth3 = true)
    (h4 : env.ack21 = true) (h5 : env.ack27 = true) :
    sentReqBodies (writeFileE87Run payload env).1 0x06 = [[0x02, 0x00, 0x01]] ∧
    (sentReqBodies (writeFileE87Run payload env).1 0x03).map (fun b => b.getD 0 0) = [0x01] ∧
    (sentReqBodies (writeFileE87Run payload env).1 0x07).map (fun b => b.getD 0 0) = [0x02] ∧
    (sentReqBodies (writeFileE87Run payload env).1 0x21).map (fun b => b.getD 0 0) = [0x03] ∧
    (sentReqBodies (writeFileE87Run payload env).1 0x27).map (fun b => b.getD 0 0) = [0x04] ∧
    (sentReqBodies (writeFileE87Run payload env).1 0x1b).map (fun b => b.getD 0 0) = [0x05] ∧
    ConsecFrom 6 (dataSeqBytes (writeFileE87Run payload env).1) := by
  cases hm : env.metaAck with
  | none =>
    rw [writeFileE87Run_noMeta_eq payload env h1 h2 h3 h4 h5 hm]
    refine ⟨rfl, rfl, rfl, rfl, rfl, rfl, ?_⟩
    rw [show dataSeqBytes (metaPhaseTrace payload env) = [] from rfl]
    trivial
  | some ab =>
    cases hf : findAndRemove isWinAckFrame env.loopFrames with
    | none =>
      rw [writeFileE87Run_noAck_eq payload env ab h1 h2 h3 h4 h5 hm hf]
      refine ⟨rfl, rfl, rfl, rfl, rfl, rfl, ?_⟩
      rw [show dataSeqBytes (metaPhaseTrace payload env) = [] from rfl]
      trivial
    | some pr =>
      obtain ⟨first, rest⟩ := pr
      rw [writeFileE87Run_loop_eq payload env ab first rest h1 h2 h3 h4 h5 hm hf]
      refine ⟨?_, ?_, ?_, ?_, ?_, ?_, ?_⟩
      · rw [show (metaPhaseTrace payload env ++
          (uploadLoop payload (chunkSizeOf ab) env.mode env.dateDigits 6 first rest false
            (rest.length + 1)).1, (uploadLoop payload (chunkSizeOf ab) env.mode
            env.dateDigits 6 first rest false (rest.length + 1)).2).1 =
          metaPhaseTrace payload env ++ (uploadLoop payload (chunkSizeOf ab) env.mode
            env.dateDigits 6 first rest false (rest.length + 1)).1 from rfl]
        rw [sentReqBodies_append, uploadLoop_no_req, List.append_nil]
        rfl
      · rw [show (metaPhaseTrace payload env ++
          (uploadLoop payload (chunkSizeOf ab) env.mode env.dateDigits 6 first rest false
            (rest.length + 1)).1, (uploadLoop payload (chunkSizeOf ab) env.mode
            env.dateDigits 6 first rest false (rest.length + 1)).2).1 =
          metaPhaseTrace payload env ++ (uploadLoop payload (chunkSizeOf ab) env.mode
            env.dateDigits 6 first rest false (rest.length + 1)).1 from rfl]
        rw [sentReqBodies_append, uploadLoop_no_req, List.append_nil]
        rfl
      · rw [show (metaPhaseTrace payload env ++
          (uploadLoop payload (chunkSizeOf ab) env.mode env.dateDigits 6 first rest false
            (rest.length + 1)).1, (uploadLoop payload (chunkSizeOf ab) env.mode
            env.dateDigits 6 first rest false (rest.length + 1)).2).1 =
          metaPhaseTrace payload env ++ (uploadLoop payload (chunkSizeOf ab) env.mode
            env.dateDigits 6 first rest false (rest.length + 1)).1 from rfl]
        rw [sentReqBodies_append, uploadLoop_no_req, List.append_nil]
        rfl
      · rw [show (metaPhaseTrace payload env ++
          (uploadLoop payload (chunkSizeOf ab) env.mode env.dateDigits 6 first rest false
            (rest.length + 1)).1, (uploadLoop payload (chunkSizeOf ab) env.mode
            env.dateDigits 6 first rest false (rest.length + 1)).2).1 =
          metaPhaseTrace payload env ++ (uploadLoop payload (chunkSizeOf ab) env.mode
            env.dateDigits 6 first rest false (rest.length + 1)).1 from rfl]
        rw [sentReqBodies_append, uploadLoop_no_req, List.append_nil]
        rfl
      · rw [show (metaPhaseTrace payload env ++
          (uploadLoop payload (chunkSizeOf ab) env.mode env.dateDigits 6 first rest false
            (rest.length + 1)).1, (uploadLoop payload (chunkSizeOf ab) env.mode
            env.dateDigits 6 first rest false (rest.length + 1)).2).1 =
          metaPhaseTrace payload env ++ (uploadLoop payload (chunkSizeOf ab) env.mode
            env.dateDigits 6 first rest false (rest.length + 1)).1 from rfl]
        rw [sentReqBodies_append, uploadLoop_no_req, List.append_nil]
        rfl
      · rw [show (metaPhaseTrace payload env ++
          (uploadLoop payload (chunkSizeOf ab) env.mode env.dateDigits 6 first rest false
            (rest.length + 1)).1, (uploadLoop payload (chunkSizeOf ab) env.mode
            env.dateDigits 6 first rest false (rest.length + 1)).2).1 =
          metaPhaseTrace payload env ++ (uploadLoop payload (chunkSizeOf ab) env.mode
            env.dateDigits 6 first rest false (rest.length + 1)).1 from rfl]
        rw [sentReqBodies_append, uploadLoop_no_req, List.append_nil]
        rfl
      · rw [show (metaPhaseTrace payload env ++
          (uploadLoop payload (chunkSizeOf ab) env.mode env.dateDigits 6 first rest false
            (rest.length + 1)).1, (uploadLoop payload (chunkSizeOf ab) env.mode
            env.dateDigits 6 first rest false (rest.length + 1)).2).1 =
          metaPhaseTrace payload env ++ (uploadLoop payload (chunkSizeOf ab) env.mode
            env.dateDigits 6 first rest false (rest.length + 1)).1 from rfl]
        rw [dataSeqBytes_append]
        rw [show dataSeqBytes (metaPhaseTrace payload env) = [] from rfl]
        rw [List.nil_append]
        exact uploadLoop_dataSeqBytes payload (chunkSizeOf ab) env.mode env.dateDigits
          (rest.length + 1) 6 first rest false

/-- C2 witness: a concrete successful run. -/
theorem upload_sequence_counter_witness :
    sentReqBodies (writeFileE87Run [10, 20, 30] witEnv).1 0x06 = [[0x02, 0x00, 0x01]] ∧
    (sentReqBodies (writeFileE87Run [10, 20, 30] witEnv).1 0x03).map (fun b => b.getD 0 0) = [0x01] ∧
    (sentReqBodies (writeFileE87Run [10, 20, 30] witEnv).1 0x07).map (fun b => b.getD 0 0) = [0x02] ∧
    (sentReqBodies (writeFileE87Run [10, 20, 30] witEnv).1 0x21).map (fun b => b.getD 0 0) = [0x03] ∧
    (sentReqBodies (writeFileE87Run [10, 20, 30] witEnv).1 0x27).map (fun b => b.getD 0 0) = [0x04] ∧
    (sentReqBodies (writeFileE87Run [10, 20, 30] witEnv).1 0x1b).map (fun b => b.getD 0 0) = [0x05] ∧
    ConsecFrom 6 (dataSeqBytes (writeFileE87Run [10, 20, 30] witEnv).1) :=
  upload_sequence_counter [10, 20, 30] witEnv rfl rfl rfl rfl rfl

theorem findAndRemove_eq_none (p : E87Frame → Bool) (l : List E87Frame)
    (h : ∀ f ∈ l, p f = false) : findAndRemove p l = none := by
  induction l with
  | nil => rfl
  | cons f rest ih =>
    rw [findAndRemove]
    rw [h f (List.mem_cons_self f rest)]
    rw [ih (fun g hg => h g (List.mem_cons_of_mem f hg))]
    simp

/-- C3: when the metadata ACK arrives but no `flag=0x80, cmd=0x1D`
frame ever does, the run fails (error 29, the initial window-ACK
timeout) and the trace contains no 0x01 data frame at all: there is no
fallback to streaming frames without flow control. -/
theorem no_initial_window_ack_fails (payload : List Nat) (env : DeviceEnv) (ab : List Nat)
    (h1 : env.auth1 = true) (h2 : env.auth2 = true) (h3 : env.auth3 = true)
    (h4 : env.ack21 = true) (h5 : env.ack27 = true) (hm : env.metaAck = some ab)
    (hno : ∀ f ∈ env.loopFrames, isWinAckFrame f = false) :
    (writeFileE87Run payload env).2 = RunResult.failed 29 ∧
    ∀ m ∈ (writeFileE87Run payload env).1, isDataFrame m = false := by
  have hf := findAndRemove_eq_none _ _ hno
  rw [writeFileE87Run_noAck_eq payload env ab h1 h2 h3 h4 h5 hm hf]
  refine ⟨rfl, ?_⟩
  intro m hmem
  simp only [metaPhaseTrace, List.mem_cons, List.not_mem_nil, or_false] at hmem
  rcases hmem with rfl | rfl | rfl | rfl | rfl | rfl | rfl | rfl | rfl | rfl | rfl | rfl |
    rfl | rfl | rfl | rfl | rfl | rfl | rfl | rfl <;> rfl

/-- C3 witness: a concrete run whose device never sends a window ACK. -/
theorem no_initial_window_ack_fails_witness :
    (writeFileE87Run [1, 2] witEnvNoAck).2 = RunResult.failed 29 ∧
    ∀ m ∈ (writeFileE87Run [1, 2] witEnvNoAck).1, isDataFrame m = false :=
  no_initial_window_ack_fails [1, 2] witEnvNoAck [0x00, 0x05, 0x01, 0xea]
    rfl rfl rfl rfl rfl rfl (by decide)

/-- C4 counterexample: a run whose SESSION_CLOSE frame carries the
non-zero status 5 still sends the `[0x00, dev_seq]` reply AND returns
the Complete outcome — the status is not surfaced as a failure, so the
claim that a non-zero status terminates the upload as Failed is false
at this input. -/
theorem close_error_status_completes :
    (writeFileE87Run [10, 20, 30] witEnv).2 = RunResult.complete ∧
    TxMsg.fe 0x00 0x1c [0x00, 0x07] ∈ (writeFileE87Run [10, 20, 30] witEnv).1 ∧
    witCloseFrame ∈ witEnv.loopFrames ∧
    witCloseFrame.cmd = 0x1c ∧ witCloseFrame.flag = 0xc0 ∧
    witCloseFrame.body.getD 1 0 = 0x05 := by
  refine ⟨rfl, by decide, by decide, rfl, rfl, rfl⟩

/-- C4 amended: on receiving a SESSION_CLOSE (cmd 0x1C) frame `g`, the
loop replies with `flag=0x00, cmd=0x1C, body=[0x00, dev_seq]` and the
run completes with outcome Complete regardless of the status byte
`g.body[1]` — a non-zero status is only logged, it does not produce a
Failed outcome. -/
theorem session_close_reply_and_outcome (payload : List Nat) (cs : Nat)
    (mode : UploadMode) (dd : List Nat) (seq : Nat) (ack g : E87Frame)
    (frames rest : List E87Frame) (handled : Bool) (fuel : Nat)
    (hfuel : 0 < fuel)
    (hf : findAndRemove isLoopWaitFrame frames = some (g, rest))
    (hg : g.cmd = 0x1c) :
    ∃ pre s2, (uploadLoop payload cs mode dd seq ack frames handled fuel).1 =
        pre ++ [TxMsg.fe 0x00 0x1c [0x00, g.body.getD 0 s2 % 256]] ∧
      (uploadLoop payload cs mode dd seq ack frames handled fuel).2 =
        RunResult.complete := by
  obtain ⟨n, rfl⟩ : ∃ n, fuel = n + 1 := ⟨fuel - 1, by omega⟩
  rw [uploadLoop]
  simp only [hf]
  have h20 : ¬ (g.cmd = 0x20 ∧ g.flag = 0xc0) := by
    rintro ⟨h, _⟩
    rw [hg] at h
    norm_num at h
  rw [if_neg h20, if_pos hg]
  exact ⟨(ackStep payload cs ack seq).1, (ackStep payload cs ack seq).2, rfl, rfl⟩

/-- C4 amended witness: a concrete close frame with non-zero status. -/
theorem session_close_reply_and_outcome_witness :
    ∃ pre s2,
      (uploadLoop [1] 490 UploadMode.image [] 6 witAckFrame [witCloseFrame] false 1).1 =
        pre ++ [TxMsg.fe 0x00 0x1c [0x00, witCloseFrame.body.getD 0 s2 % 256]] ∧
      (uploadLoop [1] 490 UploadMode.image [] 6 witAckFrame [witCloseFrame] false 1).2 =
        RunResult.complete :=
  session_close_reply_and_outcome [1] 490 UploadMode.image [] 6 witAckFrame witCloseFrame
    [witCloseFrame] [] false 1 (by decide) (by decide) rfl

/-- C9: a payload larger than 2,000,000 bytes is rejected before any
traffic: the run writes nothing at all (no auth bytes, no cmd 0x06, no
later frame) and fails with the size-limit error. -/
theorem oversized_rejected_before_any_write (payload : List Nat) (env : DeviceEnv)
    (h : MAX_UPLOAD_BYTES < payload.length) :
    startUploadRun payload env = ([], RunResult.failed 100) := by
  unfold startUploadRun
  rw [if_pos h]

/-- C9 witness: a 2,000,001-byte payload. -/
theorem oversized_rejected_before_any_write_witness :
    startUploadRun (List.replicate 2000001 0) witEnv = ([], RunResult.failed 100) :=
  oversized_rejected_before_any_write (List.replicate 2000001 0) witEnv
    (by rw [List.length_replicate]; norm_num [MAX_UPLOAD_BYTES])

theorem findAndRemove_rest_subset (p : E87Frame → Bool) :
    ∀ (l rest : List E87Frame) (f : E87Frame),
    findAndRemove p l = some (f, rest) → ∀ x ∈ rest, x ∈ l := by
  intro l
  induction l with
  | nil => intro rest f h; simp [findAndRemove] at h
  | cons a t ih =>
    intro rest f h x hx
    rw [findAndRemove] at h
    by_cases hp : p a
    · rw [if_pos hp] at h
      have h2 : a = f ∧ t = rest := by simpa using h
      obtain ⟨rfl, rfl⟩ := h2
      exact List.mem_cons_of_mem a hx
    · rw [if_neg hp] at h
      cases hfr : findAndRemove p t with
      | none =>
        rw [hfr] at h
        exact absurd h (by simp)
      | some pr =>
        obtain ⟨g, r⟩ := pr
        rw [hfr] at h
        have h2 : g = f ∧ a :: r = rest := by simpa using h
        obtain ⟨rfl, rfl⟩ := h2
        rcases List.mem_cons.mp hx with rfl | hx2
        · exact List.mem_cons_self x t
        · exact List.mem_cons_of_mem a (ih r g hfr x hx2)

theorem sysStep_bound (s : SysState) (e : Ev) :
    (sysStep s e).2 + writeAllowance (sysStep s e).1 ≤ writeAllowance s := by
  cases e with
  | arrive f =>
    rw [sysStep]
    by_cases hc : s.armed && !s.handled && is20c0 f
    · rw [if_pos hc]
      have hh : s.handled = false := by
        rcases Bool.and_eq_true_iff.mp hc with ⟨h1, _⟩
        rcases Bool.and_eq_true_iff.mp h1 with ⟨_, h2⟩
        simpa using h2
      simp [writeAllowance, hh]
      omega
    · rw [if_neg hc]
      simp [writeAllowance]
  | step =>
    rw [sysStep]
    cases hpc : s.pc with
    | waiting =>
      cases hfr : findAndRemove isLoopWaitFrame s.queue with
      | none => simp [writeAllowance, hpc]
      | some pr =>
        obtain ⟨f, rest⟩ := pr
        simp only
        by_cases h20 : is20c0 f
        · rw [if_pos h20]
          by_cases hh : s.handled
          · rw [if_pos hh]
            simp [writeAllowance, hpc, hh]
          · rw [if_neg hh]
            simp [writeAllowance, hpc, hh]
        · rw [if_neg h20]
          by_cases h1c : f.cmd == 0x1c
          · rw [if_pos h1c]
            simp [writeAllowance, hpc]
          · rw [if_neg h1c]
            simp [writeAllowance, hpc]
    | sending20 => simp [writeAllowance, hpc]
    | waitingClose =>
      cases hfr : findAndRemove (fun g => g.cmd == 0x1c) s.queue with
      | none => simp [writeAllowance, hpc]
      | some pr =>
        obtain ⟨g, rest⟩ := pr
        simp [writeAllowance, hpc]
    | finished => simp [writeAllowance, hpc]

theorem sysRun_bound : ∀ (evs : List Ev) (s : SysState),
    (sysRun s evs).2 ≤ writeAllowance s := by
  intro evs
  induction evs with
  | nil =>
    intro s
    rw [sysRun]
    simp
  | cons e rest ih =>
    intro s
    rw [sysRun]
    have h1 := sysStep_bound s e
    have h2 := ih (sysStep s e).1
    simp only
    omega

theorem findAndRemove_found_mem (p : E87Frame → Bool) :
    ∀ (l rest : List E87Frame) (f : E87Frame),
    findAndRemove p l = some (f, rest) → f ∈ l := by
  intro l
  induction l with
  | nil =>
    intro rest f h
    simp [findAndRemove] at h
  | cons a t ih =>
    intro rest f h
    rw [findAndRemove] at h
    by_cases hp : p a
    · rw [if_pos hp] at h
      have h2 : a = f ∧ t = rest := by simpa using h
      obtain ⟨rfl, _⟩ := h2
      exact List.mem_cons_self a t
    · rw [if_neg hp] at h
      cases hfr : findAndRemove p t with
      | none =>
        rw [hfr] at h
        exact absurd h (by simp)
      | some pr =>
        obtain ⟨g, r⟩ := pr
        rw [hfr] at h
        have h2 : g = f ∧ a :: r = rest := by simpa using h
        obtain ⟨rfl, _⟩ := h2
        exact List.mem_cons_of_mem a (ih r g hfr)

theorem mem_pushCap (q : List E87Frame) (f x : E87Frame) (h : x ∈ pushCap q f) :
    x ∈ q ∨ x = f := by
  unfold pushCap at h
  have h2 : x ∈ q ++ [f] := by
    by_cases hl : 200 < (q ++ [f]).length
    · rw [if_pos hl] at h
      exact List.mem_of_mem_drop h
    · rw [if_neg hl] at h
      exact h
  rcases List.mem_append.mp h2 with h3 | h3
  · exact Or.inl h3
  · exact Or.inr (by simpa using h3)

theorem sysStep_clean (s : SysState) (e : Ev) (hs : CleanInv s) :
    CleanInv (sysStep s e).1 ∧
      (sysStep s e).2 + (if (sysStep s e).1.handled then 0 else 1) ≤
        (if s.handled then 0 else 1) := by
  obtain ⟨ha, hpcs, hq⟩ := hs
  cases e with
  | arrive f =>
    rw [sysStep]
    by_cases hc : s.armed && !s.handled && is20c0 f
    · rw [if_pos hc]
      have hh : s.handled = false := by
        rcases Bool.and_eq_true_iff.mp hc with ⟨h1, _⟩
        rcases Bool.and_eq_true_iff.mp h1 with ⟨_, h2⟩
        simpa using h2
      refine ⟨⟨ha, hpcs, ?_⟩, by simp [hh]⟩
      intro g _ _
      exact Or.inl rfl
    · rw [if_neg hc]
      refine ⟨⟨ha, hpcs, ?_⟩, by simp⟩
      intro g hg h20
      rcases mem_pushCap s.queue f g hg with hgq | rfl
      · exact hq g hgq h20
      · have hb : s.armed = false ∨ s.handled = true := by
          cases harm : s.armed
          · exact Or.inl rfl
          · cases hh : s.handled
            · exfalso
              apply hc
              rw [harm, hh, h20]
              rfl
            · exact Or.inr rfl
        rcases hb with hb | hb
        · exact Or.inr (ha hb)
        · exact Or.inl hb
  | step =>
    rw [sysStep]
    cases hpc : s.pc with
    | waiting =>
      simp only
      cases hfr : findAndRemove isLoopWaitFrame s.queue with
      | none => exact ⟨⟨ha, by rw [hpc] at hpcs ⊢; exact hpcs, hq⟩, by simp⟩
      | some pr =>
        obtain ⟨f, rest⟩ := pr
        have hsub := findAndRemove_rest_subset isLoopWaitFrame s.queue rest f hfr
        have hmem := findAndRemove_found_mem isLoopWaitFrame s.queue rest f hfr
        simp only
        split
        next h20 =>
          split
          next hh =>
            refine ⟨⟨?_, by simp, ?_⟩, by simp⟩
            · intro h2
              have h3 := ha h2
              rw [hpc] at h3
              exact absurd h3 (by decide)
            · intro g hg _
              exact Or.inl (by simpa using hh)
          next hh =>
            exfalso
            rcases hq f hmem h20 with h2 | h2
            · exact hh h2
            · rw [hpc] at h2
              exact absurd h2 (by decide)
        next h20 =>
          split
          next h1c =>
            refine ⟨⟨fun _ => rfl, by simp, ?_⟩, by simp⟩
            intro g _ _
            exact Or.inr rfl
          next h1c =>
            refine ⟨⟨?_, by simp, ?_⟩, by simp⟩
            · intro h2
              have h3 := ha h2
              rw [hpc] at h3
              exact absurd h3 (by decide)
            · intro g hg hg20
              rcases hq g (hsub g hg) hg20 with h2 | h2
              · exact Or.inl h2
              · rw [hpc] at h2
                exact absurd h2 (by decide)
    | sending20 =>
      exact absurd hpc hpcs
    | waitingClose =>
      simp only
      cases hfr : findAndRemove (fun g => g.cmd == 0x1c) s.queue with
      | none => exact ⟨⟨ha, by rw [hpc] at hpcs ⊢; exact hpcs, hq⟩, by simp⟩
      | some pr =>
        obtain ⟨g, rest⟩ := pr
        simp only
        refine ⟨⟨fun _ => rfl, by simp, ?_⟩, by simp⟩
        intro g2 _ _
        exact Or.inr rfl
    | finished =>
      exact ⟨⟨ha, by rw [hpc] at hpcs ⊢; exact hpcs, hq⟩, by simp⟩

theorem sysRun_clean_bound : ∀ (evs : List Ev) (s : SysState), CleanInv s →
    (sysRun s evs).2 ≤ (if s.handled then 0 else 1) := by
  intro evs
  induction evs with
  | nil =>
    intro s _
    rw [sysRun]
    simp
  | cons e rest ih =>
    intro s hs
    rw [sysRun]
    obtain ⟨hclean, hbound⟩ := sysStep_clean s e hs
    have h2 := ih (sysStep s e).1 hclean
    simp only
    omega

/-- C10 counterexample: with a FILE_COMPLETE command frame already in
the queue when the loop starts (arrived before arming) and a second one
arriving while the main loop's own path-response write is in flight,
the run issues two path-response writes, so the property that at most
one path response is ever written is false for this schedule. -/
theorem double_path_response_schedule :
    (sysRun (initState [⟨0xc0, 0x20, 0, []⟩])
      [Ev.step, Ev.arrive ⟨0xc0, 0x20, 0, []⟩]).2 = 2 := by
  decide

/-- C10 amended: over every arrival/step schedule, at most two
FILE_COMPLETE path responses are ever written (the auto-responder can
write at most once, since it sets the one-shot flag before its write,
and the main loop can write at most once); and when no FILE_COMPLETE
command frame is queued before the responder is armed, at most one is
written. -/
theorem path_response_bounds :
    (∀ (q0 : List E87Frame) (evs : List Ev),
        (sysRun (initState q0) evs).2 ≤ 2) ∧
    (∀ (q0 : List E87Frame) (evs : List Ev),
        (∀ f ∈ q0, is20c0 f = false) →
        (sysRun (initState q0) evs).2 ≤ 1) := by
  constructor
  · intro q0 evs
    have h := sysRun_bound evs (initState q0)
    simpa [writeAllowance, initState] using h
  · intro q0 evs hq0
    have hclean : CleanInv (initState q0) := by
      refine ⟨?_, ?_, ?_⟩
      · intro h
        simp [initState] at h
      · simp [initState]
      · intro f hf h20
        rw [hq0 f hf] at h20
        exact absurd h20 (by simp)
    have h := sysRun_clean_bound evs (initState q0) hclean
    simpa [initState] using h

/-- C10 amended witness: concrete schedules under both bounds. -/
theorem path_response_bounds_witness :
    (sysRun (initState [⟨0x80, 0x1d, 8, [0, 0, 0, 0, 0, 0, 0, 0]⟩])
      [Ev.step, Ev.arrive ⟨0xc0, 0x20, 0, []⟩]).2 ≤ 1 :=
  path_response_bounds.2 [⟨0x80, 0x1d, 8, [0, 0, 0, 0, 0, 0, 0, 0]⟩]
    [Ev.step, Ev.arrive ⟨0xc0, 0x20, 0, []⟩] (by decide)

end E87
